import Mathlib

/-!
Verification of the datadive spreadsheet-import pipeline.

The definitions below are a shallow embedding of the TypeScript source:
src/components/ExcelUploader.tsx (detectFieldType, convertValue,
processExcelFile, handleFileSelect, handleImport), src/components/ChartBuilder.tsx
(chartData) and the store wiring in src/App.tsx / FieldBuilder.
-/

namespace DataDive

/-- An exact rational, kept as an unreduced numerator-denominator pair (the
denominator is always positive in every value this development constructs).
Values are only built by the numeric parsers, compared with zero by sign, and
printed by repeated division, none of which needs a normalized form. -/
structure Frac where
  num : Int
  den : Nat
deriving DecidableEq, Repr

instance (n : Nat) : OfNat Frac n := ⟨⟨n, 1⟩⟩

def Frac.ofNat (n : Nat) : Frac := ⟨n, 1⟩

def Frac.neg (a : Frac) : Frac := ⟨-a.num, a.den⟩

def Frac.add (a b : Frac) : Frac := ⟨a.num * b.den + b.num * a.den, a.den * b.den⟩

def Frac.mul (a b : Frac) : Frac := ⟨a.num * b.num, a.den * b.den⟩

/-- Division by a fraction with positive numerator (the only use below is
division by a power of ten). -/
def Frac.divPos (a b : Frac) : Frac := ⟨a.num * b.den, a.den * b.num.natAbs⟩

/-- Ten to an integer power, as a fraction. -/
def pow10 (e : Int) : Frac :=
  if 0 ≤ e then ⟨(10 ^ e.natAbs : Nat), 1⟩ else ⟨1, 10 ^ e.natAbs⟩

/-- JavaScript numbers as this code base observes them: NaN, a signed infinity,
or a finite value.  Finite values are modelled as exact rationals; the program
performs no floating-point arithmetic on them (values are only parsed, compared
with zero and printed), so binary64 rounding is irrelevant to every property
proved below. -/
inductive JSNumber where
  | nan : JSNumber
  | inf (neg : Bool) : JSNumber
  | fin (q : Frac) : JSNumber
deriving DecidableEq, Repr

/-- A raw spreadsheet cell value as produced by the XLSX parse
(sheet_to_json with header 1): null, undefined (absent cell), a string,
a number, or a boolean. -/
inductive CellValue where
  | null : CellValue
  | undefined : CellValue
  | str (s : String) : CellValue
  | num (n : JSNumber) : CellValue
  | bool (b : Bool) : CellValue
deriving DecidableEq, Repr

/-- The five field types of the schema (src/types.ts, Field.type). -/
inductive FieldType where
  | text | number | date | email | boolean
deriving DecidableEq, Repr

/-- A normalized in-memory value as stored in a row: a string, a number or a
boolean (the possible outputs of convertValue). -/
inductive Value where
  | vstr (s : String) : Value
  | vnum (n : JSNumber) : Value
  | vbool (b : Bool) : Value
deriving DecidableEq, Repr

/-! ### Decimal printing (JS number-to-string and template interpolation) -/

def digitChar (m : Nat) : Char := Char.ofNat (48 + m)

def natDecGo : Nat → Nat → List Char
  | 0, _ => []
  | _ + 1, 0 => []
  | f + 1, n + 1 => natDecGo f ((n + 1) / 10) ++ [digitChar ((n + 1) % 10)]

/-- Decimal representation of a natural number, as produced by JS template
interpolation and by Number.prototype.toString on nonnegative integers. -/
def natDec (n : Nat) : String := if n = 0 then "0" else String.mk (natDecGo (n + 1) n)

/-- Decimal digits of the fraction r/den (0 ≤ r < den), emitted until the
expansion terminates or the fuel runs out. -/
def fracDigits : Nat → Nat → Nat → List Char
  | 0, _, _ => []
  | _ + 1, 0, _ => []
  | f + 1, r + 1, den => digitChar ((r + 1) * 10 / den) :: fracDigits f ((r + 1) * 10 % den) den

def posRatToString (q : Frac) : String :=
  let ip := q.num.natAbs / q.den
  let r := q.num.natAbs % q.den
  natDec ip ++ (if r = 0 then "" else "." ++ String.mk (fracDigits 1100 r q.den))

/-- Number.prototype.toString on a finite value.  Exact for every value with a
terminating decimal expansion (every binary64 float has one).  The exponential
notation JS switches to outside of roughly [1e-6, 1e21) is not modelled; no
property below touches that range, and the only fact proved about arbitrary
numeric strings is that they start with a digit or a minus sign, which holds
for the exponential form as well. -/
def ratToString (q : Frac) : String :=
  if q.num < 0 then "-" ++ posRatToString (Frac.neg q) else posRatToString q

def jsNumToString : JSNumber → String
  | .nan => "NaN"
  | .inf true => "-Infinity"
  | .inf false => "Infinity"
  | .fin q => ratToString q

/-- The ECMAScript abstract ToString operation on cell values (used by string
coercion, e.g. the implicit coercion inside parseFloat). -/
def jsToStr : CellValue → String
  | .null => "null"
  | .undefined => "undefined"
  | .str s => s
  | .bool true => "true"
  | .bool false => "false"
  | .num n => jsNumToString n

/-- value.toString() as a method call: throws a TypeError on null and
undefined (modelled as none); otherwise agrees with ToString. -/
def jsToStringMethod : CellValue → Option String
  | .null => none
  | .undefined => none
  | v => some (jsToStr v)

/-- String.prototype.toLowerCase, for the ASCII range this program uses. -/
def jsToLowerCase (s : String) : String := String.mk (s.data.map Char.toLower)

/-- String.prototype.trim: whitespace removed from both ends. -/
def jsTrim (s : String) : String :=
  String.mk (((s.data.dropWhile Char.isWhitespace).reverse.dropWhile Char.isWhitespace).reverse)

/-- String.prototype.includes for a single-character needle. -/
def strContainsChar (s : String) (c : Char) : Bool := s.data.contains c

/-- String.prototype.endsWith. -/
def strEndsWith (s suffix : String) : Bool := suffix.data.isSuffixOf s.data

/-! ### ECMAScript numeric parsing: Number(string) and parseFloat -/

def takeDigits : List Char → List Char × List Char
  | [] => ([], [])
  | c :: cs =>
    if c.isDigit then
      let p := takeDigits cs
      (c :: p.1, p.2)
    else ([], c :: cs)

def digitsToNat (ds : List Char) : Nat := ds.foldl (fun a c => 10 * a + (c.toNat - 48)) 0

/-- The rational denoted by integer digits ip, fraction digits fp and a base-10
exponent e. -/
def decValue (ip fp : List Char) (e : Int) : Frac :=
  Frac.mul
    (Frac.add (Frac.ofNat (digitsToNat ip))
      (Frac.divPos (Frac.ofNat (digitsToNat fp)) (pow10 (fp.length : Int))))
    (pow10 e)

def isExpChar (c : Char) : Bool := c = 'e' || c = 'E'

/-- Read an optionally signed nonempty digit run; returns its value and the
rest of the input. -/
def parseSignedDigits (cs : List Char) : Option (Int × List Char) :=
  let p : Bool × List Char :=
    match cs with
    | '+' :: r => (false, r)
    | '-' :: r => (true, r)
    | r => (false, r)
  let d := takeDigits p.2
  if d.1 = [] then none
  else some ((if p.1 then -(digitsToNat d.1 : Int) else (digitsToNat d.1 : Int)), d.2)

/-- Parse an unsigned ECMAScript DecimalLiteral spanning the entire input. -/
def parseDecAll (cs : List Char) : Option Frac :=
  let ipp := takeDigits cs
  match ipp.2 with
  | '.' :: r2 =>
    let fpp := takeDigits r2
    if ipp.1 = [] ∧ fpp.1 = [] then none
    else
      match fpp.2 with
      | [] => some (decValue ipp.1 fpp.1 0)
      | c :: r4 =>
        if isExpChar c then
          match parseSignedDigits r4 with
          | some er => if er.2 = [] then some (decValue ipp.1 fpp.1 er.1) else none
          | none => none
        else none
  | [] => if ipp.1 = [] then none else some (decValue ipp.1 [] 0)
  | c :: r2 =>
    if ipp.1 ≠ [] ∧ isExpChar c then
      match parseSignedDigits r2 with
      | some er => if er.2 = [] then some (decValue ipp.1 [] er.1) else none
      | none => none
    else none

def isHexDigitChar (c : Char) : Bool := c.isDigit || ('a' ≤ c && c ≤ 'f') || ('A' ≤ c && c ≤ 'F')

def hexDigitVal (c : Char) : Nat :=
  if c.isDigit then c.toNat - 48
  else if 'a' ≤ c && c ≤ 'f' then c.toNat - 87
  else c.toNat - 55

def radixVal (radix : Nat) (ds : List Char) : Nat := ds.foldl (fun a c => radix * a + hexDigitVal c) 0

def isBinDigitChar (c : Char) : Bool := c = '0' || c = '1'

def isOctDigitChar (c : Char) : Bool := '0' ≤ c && c ≤ '7'

/-- A signed decimal StringNumericLiteral or a signed Infinity. -/
def strToNumberSigned (cs : List Char) : JSNumber :=
  let p : Bool × List Char :=
    match cs with
    | '+' :: r => (false, r)
    | '-' :: r => (true, r)
    | r => (false, r)
  if p.2 = "Infinity".data then .inf p.1
  else
    match parseDecAll p.2 with
    | some q => .fin (if p.1 then Frac.neg q else q)
    | none => .nan

/-- The ECMAScript string-to-number conversion performed by Number(string):
trim whitespace (empty means 0), then the whole remainder must be a signed
decimal literal, a signed Infinity, or an unsigned 0x/0o/0b integer literal;
anything else is NaN. -/
def strToNumber (s : String) : JSNumber :=
  match (jsTrim s).data with
  | [] => .fin 0
  | '0' :: x :: ds =>
    if x = 'x' || x = 'X' then
      if ds ≠ [] ∧ ds.all isHexDigitChar then .fin (Frac.ofNat (radixVal 16 ds)) else .nan
    else if x = 'b' || x = 'B' then
      if ds ≠ [] ∧ ds.all isBinDigitChar then .fin (Frac.ofNat (radixVal 2 ds)) else .nan
    else if x = 'o' || x = 'O' then
      if ds ≠ [] ∧ ds.all isOctDigitChar then .fin (Frac.ofNat (radixVal 8 ds)) else .nan
    else strToNumberSigned ('0' :: x :: ds)
  | cs => strToNumberSigned cs

/-- ECMAScript parseFloat on a string: skip leading whitespace, then read the
longest prefix that is a signed decimal literal or Infinity; NaN when no digit
can be read.  Trailing garbage is ignored, and a malformed exponent suffix is
simply not consumed. -/
def strParseFloat (s : String) : JSNumber :=
  let cs := s.data.dropWhile Char.isWhitespace
  let p : Bool × List Char :=
    match cs with
    | '+' :: r => (false, r)
    | '-' :: r => (true, r)
    | r => (false, r)
  if "Infinity".data.isPrefixOf p.2 then .inf p.1
  else
    let ipp := takeDigits p.2
    let fpp : List Char × List Char :=
      match ipp.2 with
      | '.' :: r => takeDigits r
      | r => ([], r)
    if ipp.1 = [] ∧ fpp.1 = [] then .nan
    else
      let e : Int :=
        match fpp.2 with
        | c :: r =>
          if isExpChar c then
            match parseSignedDigits r with
            | some er => er.1
            | none => 0
          else 0
        | [] => 0
      let v := decValue ipp.1 fpp.1 e
      .fin (if p.1 then Frac.neg v else v)

/-- The ECMAScript ToNumber coercion, i.e. what Number(value) computes. -/
def jsNumberCoerce : CellValue → JSNumber
  | .null => .fin 0
  | .undefined => .nan
  | .str s => strToNumber s
  | .num n => n
  | .bool true => .fin 1
  | .bool false => .fin 0

/-- parseFloat(value): the argument is first coerced to a string. -/
def jsParseFloat (v : CellValue) : JSNumber := strParseFloat (jsToStr v)

def isNaNB : JSNumber → Bool
  | .nan => true
  | _ => false

/-! ### Dates: new Date(value), getTime validity, toISOString date part -/

def isLeapYear (y : Int) : Bool := (y.emod 4 = 0 && y.emod 100 ≠ 0) || y.emod 400 = 0

def daysInMonth (y : Int) (m : Nat) : Nat :=
  if m = 2 then (if isLeapYear y then 29 else 28)
  else if m = 4 || m = 6 || m = 9 || m = 11 then 30
  else 31

/-- Days since the Unix epoch of a proleptic-Gregorian civil date
(the standard era-based conversion). -/
def daysFromCivil (y : Int) (m d : Nat) : Int :=
  let yy : Int := y - (if m ≤ 2 then 1 else 0)
  let era : Int := (if 0 ≤ yy then yy else yy - 399).ediv 400
  let yoe : Int := yy - era * 400
  let mp : Int := (m : Int) + (if 2 < m then -3 else 9)
  let doy : Int := (153 * mp + 2).ediv 5 + (d : Int) - 1
  let doe : Int := yoe * 365 + yoe.ediv 4 - yoe.ediv 100 + doy
  era * 146097 + doe - 719468

/-- Civil date (year, month, day) of a days-since-epoch count. -/
def civilFromDays (z0 : Int) : Int × Nat × Nat :=
  let z : Int := z0 + 719468
  let era : Int := (if 0 ≤ z then z else z - 146096).ediv 146097
  let doe : Int := z - era * 146097
  let yoe : Int := (doe - doe.ediv 1460 + doe.ediv 36524 - doe.ediv 146096).ediv 365
  let y : Int := yoe + era * 400
  let doy : Int := doe - (365 * yoe + yoe.ediv 4 - yoe.ediv 100)
  let mp : Int := (5 * doy + 2).ediv 153
  let d : Int := doy - (153 * mp + 2).ediv 5 + 1
  let m : Int := mp + (if mp < 10 then 3 else -9)
  (y + (if m ≤ 2 then 1 else 0), m.toNat, d.toNat)

def msPerDay : Int := 86400000

def mkDateMs (y : Int) (m d : Nat) : Option Int :=
  if 1 ≤ m ∧ m ≤ 12 ∧ 1 ≤ d ∧ d ≤ daysInMonth y m then
    some (daysFromCivil y m d * msPerDay)
  else none

/-- ISO date-only form YYYY-MM-DD (UTC midnight), the one string format whose
Date parse ECMAScript pins down. -/
def parseDateISO (cs : List Char) : Option Int :=
  let yp := takeDigits cs
  if yp.1.length = 4 then
    match yp.2 with
    | '-' :: r2 =>
      let mp := takeDigits r2
      if mp.1.length = 2 then
        match mp.2 with
        | '-' :: r4 =>
          let dp := takeDigits r4
          if dp.1.length = 2 ∧ dp.2 = [] then
            mkDateMs (digitsToNat yp.1) (digitsToNat mp.1) (digitsToNat dp.1)
          else none
        | _ => none
      else none
    | _ => none
  else none

/-- Slash form M/D/YYYY accepted by the engines this app targets.  JS string
date parsing beyond ISO is implementation-defined (and the slash form uses the
local time zone); it is modelled here as a UTC in-range M/D/YYYY parse.  No
claim depends on which extra formats are accepted: wherever a date parse
decides a claim the input is rejected by every JS engine as well. -/
def parseDateSlash (cs : List Char) : Option Int :=
  let mp := takeDigits cs
  if 1 ≤ mp.1.length ∧ mp.1.length ≤ 2 then
    match mp.2 with
    | '/' :: r2 =>
      let dp := takeDigits r2
      if 1 ≤ dp.1.length ∧ dp.1.length ≤ 2 then
        match dp.2 with
        | '/' :: r4 =>
          let yp := takeDigits r4
          if yp.1.length = 4 ∧ yp.2 = [] then
            mkDateMs (digitsToNat yp.1) (digitsToNat mp.1) (digitsToNat dp.1)
          else none
        | _ => none
      else none
    | _ => none
  else none

def parseDateString (s : String) : Option Int :=
  match parseDateISO s.data with
  | some ms => some ms
  | none => parseDateSlash s.data

def maxTimeValue : Int := 8640000000000000

/-- Truncation toward zero of a rational (the ECMAScript ToIntegerOrInfinity
step applied to a finite time value). -/
def ratTrunc (q : Frac) : Int :=
  if q.num < 0 then -(((-q.num).toNat / q.den : Nat) : Int) else ((q.num.toNat / q.den : Nat) : Int)

/-- new Date(value) followed by getTime(): some ms when the date is valid,
none when it is an Invalid Date (getTime is NaN). -/
def jsNewDate : CellValue → Option Int
  | .null => some 0
  | .undefined => none
  | .bool true => some 1
  | .bool false => some 0
  | .num .nan => none
  | .num (.inf _) => none
  | .num (.fin q) =>
    let ms := ratTrunc q
    if ms.natAbs ≤ maxTimeValue.toNat then some ms else none
  | .str s => parseDateString s

def pad2 (n : Nat) : String := if n < 10 then "0" ++ natDec n else natDec n

def pad4 (n : Nat) : String :=
  if n < 10 then "000" ++ natDec n
  else if n < 100 then "00" ++ natDec n
  else if n < 1000 then "0" ++ natDec n
  else natDec n

/-- The date part of Date.prototype.toISOString (what
toISOString().split('T')[0] yields), for the year range 0..9999 the app's
data stays in. -/
def toISODatePart (ms : Int) : String :=
  let days := ms.ediv msPerDay
  let c := civilFromDays days
  pad4 c.1.toNat ++ "-" ++ pad2 c.2.1 ++ "-" ++ pad2 c.2.2

/-! ### The date regex of detectFieldType -/

def isSepChar (c : Char) : Bool := c = '-' || c = '/'

def charAt (cs : List Char) (i : Nat) : Char := cs.getD i 'x'

def digitsRunAt (cs : List Char) (st len : Nat) : Bool :=
  decide (st + len ≤ cs.length) && ((cs.drop st).take len).all Char.isDigit

def dateRegexMatchAt (cs : List Char) (st l1 l2 l3 : Nat) : Bool :=
  digitsRunAt cs st l1 && isSepChar (charAt cs (st + l1)) &&
    digitsRunAt cs (st + l1 + 1) l2 && isSepChar (charAt cs (st + l1 + 1 + l2)) &&
    digitsRunAt cs (st + l1 + 1 + l2 + 1) l3

/-- Unanchored search semantics of the regex used on line 44 of
ExcelUploader.tsx: one to four digits, a dash or slash, one or two digits, a
dash or slash, one to four digits, anywhere in the string.  The bounded
disjunction over run lengths is exactly the backtracking behaviour of the
bounded quantifiers. -/
def dateRegexTest (s : String) : Bool :=
  let cs := s.data
  (List.range (cs.length + 1)).any fun st =>
    [1, 2, 3, 4].any fun l1 =>
      [1, 2].any fun l2 =>
        [1, 2, 3, 4].any fun l3 => dateRegexMatchAt cs st l1 l2 l3

/-! ### detectFieldType (ExcelUploader.tsx lines 28-54) -/

/-- The test value === null, value === undefined or value === the empty
string, used both by detectFieldType (line 29) and convertValue (line 57) and
by the sample/blank-row filters (lines 106 and 123). -/
def isEmptyCell : CellValue → Bool
  | .null => true
  | .undefined => true
  | .str "" => true
  | _ => false

def boolLikeStrings : List String := ["true", "false", "yes", "no", "Y", "N"]

/-- The boolean-likeness test of lines 32-33: typeof value is boolean, or
value is strictly equal to one of six string literals (strict equality against
a string literal only ever holds for a string value). -/
def isBoolLike : CellValue → Bool
  | .bool _ => true
  | .str s => boolLikeStrings.contains s
  | _ => false

/-- detectFieldType: guess a field type from one sample value. -/
def detectFieldType (v : CellValue) : FieldType :=
  if isEmptyCell v then .text
  else if isBoolLike v then .boolean
  else if !isNaNB (jsNumberCoerce v) && !isNaNB (jsParseFloat v) then .number
  else if (jsNewDate v).isSome && dateRegexTest (jsToStr v) then .date
  else if (match v with
           | .str s => strContainsChar s '@' && strContainsChar s '.'
           | _ => false) then .email
  else .text

/-! ### convertValue (ExcelUploader.tsx lines 56-74) -/

/-- The empty representation of each field type (line 58). -/
def emptyRep : FieldType → Value
  | .number => .vnum (.fin 0)
  | .boolean => .vbool false
  | _ => .vstr ""

def truthyBoolStrings : List String := ["true", "yes", "y", "1"]

/-- Number(value) || 0 of line 63: the falsy numbers NaN, 0 and -0 are
replaced by 0; everything else (including Infinity) passes through. -/
def numberOrZero (n : JSNumber) : JSNumber :=
  match n with
  | .nan => .fin 0
  | .fin q => if q.num = 0 then .fin 0 else .fin q
  | .inf b => .inf b

/-- convertValue with the throwing operation value.toString() made explicit:
none models an exception escaping the function.  The totality theorem C1 shows
this never happens. -/
def convertValueE (v : CellValue) (t : FieldType) : Option Value :=
  if isEmptyCell v then some (emptyRep t)
  else
    match t with
    | .number => some (.vnum (numberOrZero (jsNumberCoerce v)))
    | .boolean =>
      match v with
      | .bool b => some (.vbool b)
      | _ => (jsToStringMethod v).map fun s =>
          .vbool (truthyBoolStrings.contains (jsToLowerCase s))
    | .date =>
      match jsNewDate v with
      | some ms => some (.vstr (toISODatePart ms))
      | none => some (.vstr "")
    | _ => (jsToStringMethod v).map .vstr

/-- convertValue as the total function it in fact is: for non-empty values the
method call value.toString() cannot throw (the receiver is never null or
undefined there), so the exceptional branch of convertValueE is unreachable;
the fallback value in that dead branch is arbitrary. -/
def convertValue (v : CellValue) (t : FieldType) : Value :=
  match convertValueE v t with
  | some r => r
  | none => emptyRep t

/-! ### The import pipeline (processExcelFile, ExcelUploader.tsx lines 76-158)

The XLSX library call is an external collaborator; the pipeline is modelled
from the grid it returns (jsonData: an array of arrays of cell values, first
row the headers).  Rows are dense lists; indexing past the end of a row yields
undefined, as in JS. -/

structure Field where
  id : String
  name : String
  type : FieldType
  required : Bool
deriving DecidableEq, Repr

/-- A row object: the insertion-ordered key-value pairs of a JS object.
Built as one id entry followed by one property write per field. -/
abbrev Row : Type := List (String × Value)

/-- Property read obj[k]: none models undefined (absent key). -/
def jsGet (r : Row) (k : String) : Option Value :=
  (r.find? (fun p => p.1 = k)).map (fun p => p.2)

/-- Property write obj[k] = v: overwrite in place when the key exists
(keeping its position), append otherwise. -/
def setKey (r : Row) (k : String) (v : Value) : Row :=
  if r.any (fun p => p.1 = k) then r.map (fun p => if p.1 = k then (k, v) else p)
  else r ++ [(k, v)]

/-- row[index] with JS out-of-range semantics. -/
def jsIndex (r : List CellValue) (i : Nat) : CellValue := r.getD i .undefined

/-- Lines 104-107: the first up-to-5 non-empty values of column i. -/
def sampleValues (dataRows : List (List CellValue)) (i : Nat) : List CellValue :=
  (((dataRows.map (fun r => jsIndex r i)).filter (fun v => !isEmptyCell v)).take 5)

/-- Lines 109-111: the detected type of column i. -/
def detectColumnType (dataRows : List (List CellValue)) (i : Nat) : FieldType :=
  match sampleValues dataRows i with
  | [] => .text
  | v :: _ => detectFieldType v

/-- Lines 113-118: one synthesized field; none models the TypeError thrown by
header.toString() on a null or undefined header cell (caught by the
surrounding try as a generic processing failure). -/
def makeField (now : Nat) (dataRows : List (List CellValue)) (i : Nat) (h : CellValue) :
    Option Field :=
  (jsToStringMethod h).map fun s =>
    { id := "field_" ++ natDec i ++ "_" ++ natDec now
      name := if jsTrim s = "" then "Column " ++ natDec (i + 1) else jsTrim s
      type := detectColumnType dataRows i
      required := false }

def makeFieldsGo (now : Nat) (dataRows : List (List CellValue)) :
    Nat → List CellValue → Option (List Field)
  | _, [] => some []
  | i, h :: rest => do
    let f ← makeField now dataRows i h
    let fs ← makeFieldsGo now dataRows (i + 1) rest
    some (f :: fs)

/-- headers.map of line 102. -/
def makeFields (now : Nat) (headers : List CellValue) (dataRows : List (List CellValue)) :
    Option (List Field) :=
  makeFieldsGo now dataRows 0 headers

/-- Line 123: a data row survives when some cell is non-empty. -/
def rowNonBlank (r : List CellValue) : Bool := r.any (fun c => !isEmptyCell c)

def buildRowDataGo (r : List CellValue) : Nat → List Field → Row → Row
  | _, [], m => m
  | i, f :: fs, m =>
    buildRowDataGo r (i + 1) fs (setKey m f.name (convertValue (jsIndex r i) f.type))

/-- Lines 124-135: one table row, starting from {id} and writing one property
per field in field order. -/
def buildRow (now : Nat) (fields : List Field) (rowIndex : Nat) (r : List CellValue) : Row :=
  buildRowDataGo r 0 fields [("id", .vstr ("row_" ++ natDec rowIndex ++ "_" ++ natDec now))]

structure Preview where
  fields : List Field
  rows : List Row
deriving DecidableEq

inductive ImportError where
  | insufficientRows : ImportError
  | headerFailure : ImportError
deriving DecidableEq, Repr

/-- The grid-to-preview computation of lines 93-137 (now is the Date.now()
stamp used in generated ids). -/
def processGrid (now : Nat) (grid : List (List CellValue)) : Except ImportError Preview :=
  if grid.length < 2 then .error .insufficientRows
  else
    match grid with
    | [] => .error .insufficientRows
    | headers :: dataRows =>
      match makeFields now headers dataRows with
      | none => .error .headerFailure
      | some fields =>
        let kept := dataRows.filter rowNonBlank
        .ok { fields := fields
              rows := kept.enum.map (fun p => buildRow now fields p.1 p.2) }

/-! ### Chart projection (ChartBuilder.tsx lines 33-54) -/

structure ChartConfig where
  type : String
  xAxis : Option String
  yAxis : List String
  title : Option String

/-- JS truthiness of a possibly absent row value: undefined, the empty
string, 0, -0, NaN and false are falsy. -/
def truthyOpt : Option Value → Bool
  | none => false
  | some (.vstr s) => s ≠ ""
  | some (.vbool b) => b
  | some (.vnum .nan) => false
  | some (.vnum (.inf _)) => true
  | some (.vnum (.fin q)) => q.num ≠ 0

/-- Line 49: typeof value === number ? value : 0. -/
def chartNumCoerce : Option Value → JSNumber
  | some (.vnum n) => n
  | _ => .fin 0

/-- Lines 36-52: one chart point, itself a JS object: {index}, then the label
write, then one write per configured yAxis field. -/
def chartPoint (config : ChartConfig) (i : Nat) (row : Row) : Row :=
  let posLabel : Value := .vstr ("Row " ++ natDec (i + 1))
  let p : Row := [("index", .vnum (.fin (Frac.ofNat (i + 1))))]
  let p :=
    match config.xAxis with
    | none => setKey p "label" posLabel
    | some x =>
      if x ≠ "" ∧ truthyOpt (jsGet row x) then
        setKey p "label" ((jsGet row x).getD (.vstr ""))
      else setKey p "label" posLabel
  config.yAxis.foldl (fun p f => setKey p f (.vnum (chartNumCoerce (jsGet row f)))) p

/-- chartData: one point per row, in row order. -/
def chartData (data : List Row) (config : ChartConfig) : List Row :=
  if data.length = 0 then []
  else data.enum.map (fun p => chartPoint config p.1 p.2)

/-! ### The application state machine around the import

Store: the live Schema/Row Store of App.tsx (fields, data).  Uploader: the
local state of ExcelUploader.  Events model the user-visible actions and the
outcome of the asynchronous file read. -/

structure Store where
  fields : List Field
  rows : List Row
deriving DecidableEq

structure UploaderState where
  preview : Option Preview
  errorMsg : Option String
  processing : Bool

structure AppState where
  store : Store
  uploader : UploaderState

/-- The outcome of the asynchronous part of processExcelFile: the dynamically
loaded XLSX library, the FileReader read, and the workbook parse are
external; a successful parse yields the sheet grid. -/
inductive FileOutcome where
  | libraryError : FileOutcome
  | readError : FileOutcome
  | parseError : FileOutcome
  | grid (g : List (List CellValue)) : FileOutcome

inductive Event where
  | selectFile (name : String) (size : Nat) (now : Nat) (outcome : FileOutcome) : Event
  | confirmImport : Event
  | cancel : Event
  | uploadDifferent : Event

/-- The extension allow-list regex of line 484, case-insensitive. -/
def hasValidExtension (name : String) : Bool :=
  let l := jsToLowerCase name
  strEndsWith l ".xlsx" || strEndsWith l ".xls" || strEndsWith l ".csv"

def maxFileSize : Nat := 10 * 1024 * 1024

def insufficientRowsMsg : String := "Excel file must have at least a header row and one data row"

def invalidFileTypeMsg : String := "Please select a valid Excel file (.xlsx, .xls) or CSV file"

def fileTooLargeMsg : String := "File size must be less than 10MB"

def importErrorMsg : ImportError → String
  | .insufficientRows => insufficientRowsMsg
  | .headerFailure => "Cannot convert a null or undefined header to a string"

def fileOutcomeMsg : FileOutcome → String
  | .libraryError => "Excel processing library failed to load"
  | .readError => "Failed to read file"
  | .parseError => "Failed to process Excel file"
  | .grid _ => ""

/-- One step of the import UI: handleFileSelect / processExcelFile (lines
76-158 and 483-495), handleImport (lines 524-529, via onDataImport the App
wholesale-replaces fields and data), onClose (the preview is component-local
state and is discarded), and the Upload Different File button (line 744). -/
def step (s : AppState) : Event → AppState
  | .selectFile name size now outcome =>
    if !hasValidExtension name then
      { s with uploader := { s.uploader with errorMsg := some invalidFileTypeMsg } }
    else if size > maxFileSize then
      { s with uploader := { s.uploader with errorMsg := some fileTooLargeMsg } }
    else
      match outcome with
      | .grid g =>
        match processGrid now g with
        | .ok p =>
          { s with uploader := { preview := some p, errorMsg := none, processing := false } }
        | .error e =>
          { s with uploader := { s.uploader with
              errorMsg := some (importErrorMsg e), processing := false } }
      | o =>
        { s with uploader := { s.uploader with
            errorMsg := some (fileOutcomeMsg o), processing := false } }
  | .confirmImport =>
    match s.uploader.preview with
    | some p =>
      { store := { fields := p.fields, rows := p.rows }
        uploader := { preview := none, errorMsg := none, processing := false } }
    | none => s
  | .cancel =>
    { s with uploader := { preview := none, errorMsg := none, processing := false } }
  | .uploadDifferent =>
    { s with uploader := { s.uploader with preview := none } }

/-! ### Vocabulary used by the claims -/

/-- The notion of an unparsable input used by the totality claim about the
Value Normalizer: for number, the strict numeric coercion is NaN; for boolean,
the value is not an actual boolean and its lower-cased string form is not one
of the four truthy spellings; for date, the value does not parse to a valid
date; for text and email (whose conversion is plain stringification) only the
empty inputs take the empty representation. -/
def unparsableFor : FieldType → CellValue → Bool
  | .number, v => isNaNB (jsNumberCoerce v)
  | .boolean, v =>
    match v with
    | .bool _ => false
    | _ => !(truthyBoolStrings.contains (jsToLowerCase (jsToStr v)))
  | .date, v => (jsNewDate v).isNone
  | _, v => isEmptyCell v

/-! ### Helper lemmas: JS object property reads and writes -/

theorem find?_overwrite_self (m : Row) (k : String) (v : Value)
    (h : m.any (fun p => p.1 = k) = true) :
    (m.map (fun p => if p.1 = k then (k, v) else p)).find? (fun p => p.1 = k) = some (k, v) := by
  induction m with
  | nil => simp at h
  | cons a rest ih =>
    by_cases ha : a.1 = k
    · simp [List.find?_cons, ha]
    · have h2 : rest.any (fun p => p.1 = k) = true := by
        simpa [List.any_cons, ha] using h
      simpa [List.find?_cons, ha] using ih h2

theorem find?_overwrite_ne (m : Row) (a k : String) (v : Value) (h : a ≠ k) :
    (m.map (fun p => if p.1 = a then (a, v) else p)).find? (fun p => p.1 = k)
      = m.find? (fun p => p.1 = k) := by
  induction m with
  | nil => rfl
  | cons x rest ih =>
    by_cases hx : x.1 = a
    · have hk : ¬x.1 = k := by rw [hx]; exact h
      simp [List.find?_cons, hx, hk, h, ih]
    · by_cases hk : x.1 = k
      · simp [List.find?_cons, hx, hk, Ne.symm h]
      · simp [List.find?_cons, hx, hk, ih]

theorem find?_eq_none_of_not_any (m : Row) (k : String)
    (h : m.any (fun p => p.1 = k) = false) :
    m.find? (fun p => p.1 = k) = none := by
  rw [List.find?_eq_none]
  intro p hp
  simpa using List.any_eq_false.mp h p hp

theorem jsGet_setKey_self (m : Row) (k : String) (v : Value) :
    jsGet (setKey m k v) k = some v := by
  unfold jsGet setKey
  by_cases h : m.any (fun p => p.1 = k) = true
  · simp only [h, if_true, find?_overwrite_self m k v h, Option.map_some']
  · have h2 : m.any (fun p => p.1 = k) = false := by
      cases hx : m.any (fun p => p.1 = k) with
      | true => exact absurd hx h
      | false => rfl
    simp [h2, List.find?_append, find?_eq_none_of_not_any m k h2, List.find?_cons]

theorem jsGet_setKey_ne (m : Row) (a k : String) (v : Value) (h : a ≠ k) :
    jsGet (setKey m a v) k = jsGet m k := by
  unfold jsGet setKey
  by_cases hany : m.any (fun p => p.1 = a) = true
  · simp only [hany, if_true, find?_overwrite_ne m a k v h]
  · have h2 : m.any (fun p => p.1 = a) = false := by
      cases hx : m.any (fun p => p.1 = a) with
      | true => exact absurd hx hany
      | false => rfl
    simp [h2, List.find?_append, List.find?_cons, h]

theorem setKey_keys_of_any (m : Row) (k : String) (v : Value)
    (h : m.any (fun p => p.1 = k) = true) :
    (setKey m k v).map Prod.fst = m.map Prod.fst := by
  unfold setKey
  simp only [h, if_true, List.map_map]
  refine List.map_congr_left ?_
  intro p _
  by_cases hp : p.1 = k <;> simp [hp]

theorem setKey_keys_of_not_any (m : Row) (k : String) (v : Value)
    (h : m.any (fun p => p.1 = k) = false) :
    (setKey m k v).map Prod.fst = m.map Prod.fst ++ [k] := by
  unfold setKey
  simp [h]

def keysNodup (m : Row) : Prop := (m.map Prod.fst).Nodup

theorem setKey_keysNodup (m : Row) (k : String) (v : Value) (h : keysNodup m) :
    keysNodup (setKey m k v) := by
  unfold keysNodup
  by_cases hany : m.any (fun p => p.1 = k) = true
  · rw [setKey_keys_of_any m k v hany]
    exact h
  · have h2 : m.any (fun p => p.1 = k) = false := by
      cases hx : m.any (fun p => p.1 = k) with
      | true => exact absurd hx hany
      | false => rfl
    rw [setKey_keys_of_not_any m k v h2]
    have hk : k ∉ m.map Prod.fst := by
      intro hmem
      rcases List.mem_map.mp hmem with ⟨p, hp, hpk⟩
      have : m.any (fun p => p.1 = k) = true :=
        List.any_eq_true.mpr ⟨p, hp, by simp [hpk]⟩
      rw [this] at h2
      exact Bool.noConfusion h2
    rw [List.nodup_append]
    refine ⟨h, List.nodup_singleton k, ?_⟩
    intro x hx1 hx2
    rw [List.mem_singleton] at hx2
    subst hx2
    exact hk hx1

def countKey (m : Row) (k : String) : Nat := (m.filter (fun p => p.1 = k)).length

theorem countKey_eq_one_of_any_nodup (m : Row) (k : String)
    (hnd : keysNodup m) (hany : m.any (fun p => p.1 = k) = true) :
    countKey m k = 1 := by
  induction m with
  | nil => simp at hany
  | cons a rest ih =>
    unfold keysNodup at hnd
    rw [List.map_cons, List.nodup_cons] at hnd
    by_cases ha : a.1 = k
    · have hnone : rest.filter (fun p => p.1 = k) = [] := by
        rw [List.filter_eq_nil_iff]
        intro p hp
        simp only [decide_eq_true_eq]
        intro hpk
        exact hnd.1 (List.mem_map.mpr ⟨p, hp, by rw [hpk, ← ha]⟩)
      unfold countKey
      simp [List.filter_cons, ha, hnone]
    · have hany2 : rest.any (fun p => p.1 = k) = true := by
        simpa [List.any_cons, ha] using hany
      have := ih hnd.2 hany2
      unfold countKey at this ⊢
      simpa [List.filter_cons, ha] using this

theorem countKey_setKey_self (m : Row) (k : String) (v : Value) (h : keysNodup m) :
    countKey (setKey m k v) k = 1 :=
  countKey_eq_one_of_any_nodup _ _ (setKey_keysNodup m k v h) (by
    apply List.any_eq_true.mpr
    refine ⟨(k, v), ?_, by simp⟩
    unfold setKey
    by_cases hany : m.any (fun p => p.1 = k) = true
    · simp only [hany, if_true]
      rcases List.any_eq_true.mp hany with ⟨p, hp, hpk⟩
      simp only [decide_eq_true_eq] at hpk
      exact List.mem_map.mpr ⟨p, hp, by simp [hpk]⟩
    · have h2 : m.any (fun p => p.1 = k) = false := by
        cases hx : m.any (fun p => p.1 = k) with
        | true => exact absurd hx hany
        | false => rfl
      simp [h2])

theorem countKey_setKey_ne (m : Row) (a k : String) (v : Value) (h : a ≠ k) :
    countKey (setKey m a v) k = countKey m k := by
  unfold setKey countKey
  by_cases hany : m.any (fun p => p.1 = a) = true
  · simp only [hany, if_true]
    rw [List.filter_map]
    have hfil : (List.filter ((fun p => decide (p.1 = k)) ∘
        fun p => if p.1 = a then (a, v) else p) m) = m.filter (fun p => p.1 = k) := by
      refine List.filter_congr ?_
      intro p _
      by_cases hp : p.1 = a <;> simp [hp, h]
    rw [hfil, List.length_map]
  · have h2 : m.any (fun p => p.1 = a) = false := by
      cases hx : m.any (fun p => p.1 = a) with
      | true => exact absurd hx hany
      | false => rfl
    simp [h2, List.filter_append, List.filter_cons, h]

theorem jsGet_foldl_setKey_not_mem (g : String → Value) (l : List String) (p : Row)
    (k : String) (hk : k ∉ l) :
    jsGet (l.foldl (fun m f => setKey m f (g f)) p) k = jsGet p k := by
  induction l generalizing p with
  | nil => rfl
  | cons a rest ih =>
    have ha : a ≠ k := fun h => hk (h ▸ List.mem_cons_self a rest)
    rw [List.foldl_cons, ih _ (fun h => hk (List.mem_cons_of_mem a h)),
      jsGet_setKey_ne _ _ _ _ ha]

theorem jsGet_foldl_setKey_mem (g : String → Value) (l : List String) (p : Row)
    (k : String) (hk : k ∈ l) :
    jsGet (l.foldl (fun m f => setKey m f (g f)) p) k = some (g k) := by
  induction l generalizing p with
  | nil => simp at hk
  | cons a rest ih =>
    by_cases hr : k ∈ rest
    · rw [List.foldl_cons]
      exact ih _ hr
    · have hak : a = k := by
        rcases List.mem_cons.mp hk with h | h
        · exact h.symm
        · exact absurd h hr
      subst hak
      rw [List.foldl_cons, jsGet_foldl_setKey_not_mem g rest _ a hr, jsGet_setKey_self]

/-! ### Helper lemmas: the field map and the row builder -/

theorem makeFieldsGo_spec (now : Nat) (dataRows : List (List CellValue))
    (hs : List CellValue) :
    ∀ (k : Nat) (fields : List Field) (i : Nat) (f : Field),
      makeFieldsGo now dataRows k hs = some fields → fields[i]? = some f →
      ∃ h, hs[i]? = some h ∧ makeField now dataRows (k + i) h = some f := by
  induction hs with
  | nil =>
    intro k fields i f hm hf
    simp only [makeFieldsGo, Option.some.injEq] at hm
    subst hm
    simp at hf
  | cons hd rest ih =>
    intro k fields i f hm hf
    simp only [makeFieldsGo, Option.bind_eq_bind, Option.bind_eq_some] at hm
    rcases hm with ⟨f0, hf0, fs0, hfs0, hcons⟩
    simp only [Option.some.injEq] at hcons
    subst hcons
    cases i with
    | zero =>
      simp only [List.getElem?_cons_zero, Option.some.injEq] at hf
      subst hf
      exact ⟨hd, by simp, by simpa using hf0⟩
    | succ j =>
      simp only [List.getElem?_cons_succ] at hf
      rcases ih (k + 1) fs0 j f hfs0 hf with ⟨h, hh, hmk⟩
      refine ⟨h, by simpa using hh, ?_⟩
      have : k + 1 + j = k + (j + 1) := by omega
      rw [← this]
      exact hmk

theorem buildRowDataGo_cons (r : List CellValue) (i : Nat) (f : Field) (fs : List Field)
    (m : Row) :
    buildRowDataGo r i (f :: fs) m
      = buildRowDataGo r (i + 1) fs (setKey m f.name (convertValue (jsIndex r i) f.type)) := rfl

theorem buildRowDataGo_append (r : List CellValue) (xs ys : List Field) (i : Nat) (m : Row) :
    buildRowDataGo r i (xs ++ ys) m
      = buildRowDataGo r (i + xs.length) ys (buildRowDataGo r i xs m) := by
  induction xs generalizing i m with
  | nil => simp [buildRowDataGo]
  | cons a rest ih =>
    rw [List.cons_append, buildRowDataGo_cons, buildRowDataGo_cons, ih]
    have : i + 1 + rest.length = i + (a :: rest).length := by simp; omega
    rw [this]

theorem buildRowDataGo_keysNodup (r : List CellValue) (fs : List Field) (i : Nat) (m : Row)
    (h : keysNodup m) : keysNodup (buildRowDataGo r i fs m) := by
  induction fs generalizing i m with
  | nil => exact h
  | cons a rest ih =>
    rw [buildRowDataGo_cons]
    exact ih _ _ (setKey_keysNodup _ _ _ h)

theorem jsGet_buildRowDataGo_not_mem (r : List CellValue) (fs : List Field) (i : Nat)
    (m : Row) (k : String) (h : ∀ f ∈ fs, f.name ≠ k) :
    jsGet (buildRowDataGo r i fs m) k = jsGet m k := by
  induction fs generalizing i m with
  | nil => rfl
  | cons a rest ih =>
    rw [buildRowDataGo_cons, ih _ _ (fun f hf => h f (List.mem_cons_of_mem a hf)),
      jsGet_setKey_ne _ _ _ _ (h a (List.mem_cons_self a rest))]

theorem countKey_buildRowDataGo_not_mem (r : List CellValue) (fs : List Field) (i : Nat)
    (m : Row) (k : String) (h : ∀ f ∈ fs, f.name ≠ k) :
    countKey (buildRowDataGo r i fs m) k = countKey m k := by
  induction fs generalizing i m with
  | nil => rfl
  | cons a rest ih =>
    rw [buildRowDataGo_cons, ih _ _ (fun f hf => h f (List.mem_cons_of_mem a hf)),
      countKey_setKey_ne _ _ _ _ (h a (List.mem_cons_self a rest))]

/-! ### Helper lemmas: the first character of a printed number -/

theorem digitChar_isDigit (m : Nat) (h : m < 10) : (digitChar m).isDigit = true := by
  interval_cases m <;> decide

theorem natDecGo_digits (f : Nat) : ∀ n c, c ∈ natDecGo f n → c.isDigit = true := by
  induction f with
  | zero =>
    intro n c hc
    simp [natDecGo] at hc
  | succ f ih =>
    intro n c hc
    cases n with
    | zero => simp [natDecGo] at hc
    | succ m =>
      simp only [natDecGo, List.mem_append, List.mem_singleton] at hc
      rcases hc with h | h
      · exact ih _ _ h
      · subst h
        exact digitChar_isDigit _ (Nat.mod_lt _ (by omega))

theorem natDec_head (n : Nat) : ∃ c cs, (natDec n).data = c :: cs ∧ c.isDigit = true := by
  unfold natDec
  by_cases h : n = 0
  · subst h
    exact ⟨'0', [], by decide, by decide⟩
  · rw [if_neg h]
    cases n with
    | zero => exact absurd rfl h
    | succ m =>
      have heq : natDecGo (m + 1 + 1) (m + 1)
          = natDecGo (m + 1) ((m + 1) / 10) ++ [digitChar ((m + 1) % 10)] := rfl
      cases hgo : natDecGo (m + 1) ((m + 1) / 10) with
      | nil =>
        refine ⟨digitChar ((m + 1) % 10), [], ?_, digitChar_isDigit _ (Nat.mod_lt _ (by omega))⟩
        show natDecGo (m + 1 + 1) (m + 1) = _
        rw [heq, hgo]
        rfl
      | cons c cs =>
        refine ⟨c, cs ++ [digitChar ((m + 1) % 10)], ?_,
          natDecGo_digits _ _ c (hgo ▸ List.mem_cons_self _ _)⟩
        show natDecGo (m + 1 + 1) (m + 1) = _
        rw [heq, hgo]
        rfl

theorem posRatToString_head (q : Frac) :
    ∃ c cs, (posRatToString q).data = c :: cs ∧ c.isDigit = true := by
  obtain ⟨c, cs, hdata, hdig⟩ := natDec_head (q.num.natAbs / q.den)
  have hps : posRatToString q = natDec (q.num.natAbs / q.den) ++
      (if q.num.natAbs % q.den = 0 then "" else
        "." ++ String.mk (fracDigits 1100 (q.num.natAbs % q.den) q.den)) := rfl
  refine ⟨c, cs ++ (if q.num.natAbs % q.den = 0 then "" else
      "." ++ String.mk (fracDigits 1100 (q.num.natAbs % q.den) q.den)).data, ?_, hdig⟩
  rw [hps, String.data_append, hdata]
  rfl

theorem ratToString_head (q : Frac) :
    ∃ c cs, (ratToString q).data = c :: cs ∧ (c = '-' ∨ c.isDigit = true) := by
  unfold ratToString
  split
  · exact ⟨'-', (posRatToString (Frac.neg q)).data, by rw [String.data_append]; rfl, Or.inl rfl⟩
  · obtain ⟨c, cs, h1, h2⟩ := posRatToString_head q
    exact ⟨c, cs, h1, Or.inr h2⟩

theorem ratToString_headChar (q : Frac) :
    ∃ c, ((ratToString q).data).head? = some c ∧ (c = '-' ∨ c.isDigit = true) := by
  obtain ⟨c, cs, hdata, hc⟩ := ratToString_head q
  exact ⟨c, by rw [hdata]; rfl, hc⟩

theorem jsNumToString_not_boolLike (n : JSNumber) :
    jsNumToString n ∉ boolLikeStrings := by
  cases n with
  | nan => decide
  | inf b => cases b <;> decide
  | fin q =>
    intro hmem
    obtain ⟨c, hc, hp⟩ := ratToString_headChar q
    have hq : jsNumToString (JSNumber.fin q) = ratToString q := rfl
    rw [hq] at hmem
    simp only [boolLikeStrings, List.mem_cons, List.not_mem_nil, or_false] at hmem
    rcases hmem with h | h | h | h | h | h
    · rw [h] at hc
      have h4 : ("true".data).head? = some 't' := by decide
      rw [hc] at h4
      have h5 := Option.some.inj h4
      subst h5
      revert hp
      decide
    · rw [h] at hc
      have h4 : ("false".data).head? = some 'f' := by decide
      rw [hc] at h4
      have h5 := Option.some.inj h4
      subst h5
      revert hp
      decide
    · rw [h] at hc
      have h4 : ("yes".data).head? = some 'y' := by decide
      rw [hc] at h4
      have h5 := Option.some.inj h4
      subst h5
      revert hp
      decide
    · rw [h] at hc
      have h4 : ("no".data).head? = some 'n' := by decide
      rw [hc] at h4
      have h5 := Option.some.inj h4
      subst h5
      revert hp
      decide
    · rw [h] at hc
      have h4 : ("Y".data).head? = some 'Y' := by decide
      rw [hc] at h4
      have h5 := Option.some.inj h4
      subst h5
      revert hp
      decide
    · rw [h] at hc
      have h4 : ("N".data).head? = some 'N' := by decide
      rw [hc] at h4
      have h5 := Option.some.inj h4
      subst h5
      revert hp
      decide

/-! ### The claims -/

/-- C1: the Value Normalizer is total.  For every raw cell value (including
null, undefined, the empty string and malformed strings) and every target
field type, convertValue returns a value and never throws (the only throwing
operation it contains, value.toString(), is modelled explicitly by
convertValueE and is shown never to fire); unparsable input yields the type's
empty representation: 0 for number, false for boolean, and the empty string
for date, text and email. -/
theorem convertValue_total (v : CellValue) (t : FieldType) :
    (convertValueE v t).isSome = true ∧
    (unparsableFor t v = true → convertValueE v t = some (emptyRep t)) := by
  by_cases he : isEmptyCell v = true
  · refine ⟨?_, fun _ => ?_⟩ <;> simp [convertValueE, he]
  · have he2 : isEmptyCell v = false := by
      cases hx : isEmptyCell v with
      | true => exact absurd hx he
      | false => rfl
    have hts : jsToStringMethod v = some (jsToStr v) := by
      cases v with
      | null => simp [isEmptyCell] at he2
      | undefined => simp [isEmptyCell] at he2
      | str s => rfl
      | num n => rfl
      | bool b => rfl
    constructor
    · unfold convertValueE
      rw [he2]
      cases t with
      | number => rfl
      | boolean =>
        cases v with
        | bool b => rfl
        | null => simp [hts]
        | undefined => simp [hts]
        | str s => simp [hts]
        | num n => simp [hts]
      | date =>
        cases hd : jsNewDate v <;> simp [hd]
      | text => simp [hts]
      | email => simp [hts]
    · intro hu
      unfold convertValueE
      rw [he2]
      cases t with
      | number =>
        have hn : jsNumberCoerce v = .nan := by
          cases hx : jsNumberCoerce v with
          | nan => rfl
          | inf b => rw [unparsableFor, hx] at hu; simp [isNaNB] at hu
          | fin q => rw [unparsableFor, hx] at hu; simp [isNaNB] at hu
        rw [hn]
        rfl
      | boolean =>
        cases v with
        | bool b => simp [unparsableFor] at hu
        | null => simp [isEmptyCell] at he2
        | undefined => simp [isEmptyCell] at he2
        | str s =>
          have hu2 : truthyBoolStrings.contains (jsToLowerCase (jsToStr (.str s))) = false := by
            simpa [unparsableFor] using hu
          simp only [hts, Option.map_some', hu2, emptyRep]
          rfl
        | num n =>
          have hu2 : truthyBoolStrings.contains (jsToLowerCase (jsToStr (.num n))) = false := by
            simpa [unparsableFor] using hu
          simp only [hts, Option.map_some', hu2, emptyRep]
          rfl
      | date =>
        have hd : jsNewDate v = none := by
          simpa [unparsableFor, Option.isNone_iff_eq_none] using hu
        rw [hd]
        rfl
      | text =>
        have hu2 : isEmptyCell v = true := by simpa [unparsableFor] using hu
        rw [hu2] at he2
        exact Bool.noConfusion he2
      | email =>
        have hu2 : isEmptyCell v = true := by simpa [unparsableFor] using hu
        rw [hu2] at he2
        exact Bool.noConfusion he2

/-- Witness for C1 at the malformed string "twelve" with target type number:
the conversion succeeds and degrades to 0. -/
theorem convertValue_total_witness :
    unparsableFor .number (.str "twelve") = true ∧
    (convertValueE (.str "twelve") .number).isSome = true ∧
    convertValueE (.str "twelve") .number = some (emptyRep .number) :=
  ⟨by decide, (convertValue_total (.str "twelve") .number).1,
    (convertValue_total (.str "twelve") .number).2 (by decide)⟩

/-- C2: every sample value that is an actual boolean, or whose string form is
exactly (case-sensitively) one of true, false, yes, no, Y, N, is inferred as
boolean by detectFieldType. -/
theorem typeInference_boolean (v : CellValue)
    (h : (∃ b, v = CellValue.bool b) ∨ jsToStr v ∈ boolLikeStrings) :
    detectFieldType v = .boolean := by
  rcases h with ⟨b, rfl⟩ | h
  · cases b <;> decide
  · cases v with
    | null => exact absurd h (by decide)
    | undefined => exact absurd h (by decide)
    | bool b => cases b <;> decide
    | num n => exact absurd h (jsNumToString_not_boolLike n)
    | str s =>
      simp only [jsToStr, boolLikeStrings, List.mem_cons, List.not_mem_nil, or_false] at h
      rcases h with rfl | rfl | rfl | rfl | rfl | rfl <;> decide

/-- Witness for C2 at the string "yes". -/
theorem typeInference_boolean_witness :
    jsToStr (.str "yes") ∈ boolLikeStrings ∧ detectFieldType (.str "yes") = .boolean :=
  ⟨by decide, typeInference_boolean (.str "yes") (Or.inr (by decide))⟩

/-- C3: numeric precedence over date.  Every non-empty, non-boolean-like value
that converts to a finite number under both the strict coercion Number() and
parseFloat is inferred as number (hence never as date), regardless of whether
it would also pass the date test. -/
theorem typeInference_number_precedence (v : CellValue)
    (h1 : isEmptyCell v = false) (h2 : isBoolLike v = false)
    (h3 : ∃ q, jsNumberCoerce v = .fin q) (h4 : ∃ q, jsParseFloat v = .fin q) :
    detectFieldType v = .number := by
  obtain ⟨q1, hq1⟩ := h3
  obtain ⟨q2, hq2⟩ := h4
  unfold detectFieldType
  rw [h1, h2, hq1, hq2]
  simp [isNaNB]

/-- Witness for C3 at the purely numeric string "2024" (also an example of a
numeric-looking year): inferred as number, not date. -/
theorem typeInference_number_precedence_witness :
    isEmptyCell (.str "2024") = false ∧ isBoolLike (.str "2024") = false ∧
    jsNumberCoerce (.str "2024") = .fin ⟨2024, 1⟩ ∧
    jsParseFloat (.str "2024") = .fin ⟨2024, 1⟩ ∧
    detectFieldType (.str "2024") = .number ∧ FieldType.number ≠ FieldType.date :=
  ⟨by decide, by decide, by decide, by decide,
    typeInference_number_precedence (.str "2024") (by decide) (by decide)
      ⟨⟨2024, 1⟩, by decide⟩ ⟨⟨2024, 1⟩, by decide⟩, by decide⟩

/-- C4: a parsed sheet with fewer than 2 rows (header plus at least one data
row) fails with the insufficient-rows error; at the UI level the failure sets
exactly that error message and leaves the preview unchanged (in particular a
header-only file produces no preview). -/
theorem importInsufficientRows (now : Nat) (grid : List (List CellValue))
    (h : grid.length < 2) :
    processGrid now grid = .error .insufficientRows ∧
    ∀ (s : AppState) (name : String) (size : Nat),
      hasValidExtension name = true → size ≤ maxFileSize →
      (step s (.selectFile name size now (.grid grid))).uploader.preview
          = s.uploader.preview ∧
      (step s (.selectFile name size now (.grid grid))).uploader.errorMsg
          = some insufficientRowsMsg := by
  have hp : processGrid now grid = .error .insufficientRows := by
    unfold processGrid
    rw [if_pos h]
  refine ⟨hp, ?_⟩
  intro s name size hext hsize
  have hsz : ¬size > maxFileSize := by omega
  simp only [step, hext, Bool.not_true, Bool.false_eq_true, if_false, hsz, hp]
  exact ⟨trivial, rfl⟩

/-- Witness for C4: a file holding only the header row. -/
theorem importInsufficientRows_witness :
    ([[CellValue.str "Name"]] : List (List CellValue)).length < 2 ∧
    processGrid 7 [[CellValue.str "Name"]] = .error .insufficientRows :=
  ⟨by decide, (importInsufficientRows 7 [[CellValue.str "Name"]] (by decide)).1⟩

/-- C5: import atomicity.  No file-selection event (whatever its outcome:
invalid extension, oversize, library-load failure, read failure, parse
failure, insufficient rows, or even a successful parse, which only fills the
preview) mutates the live store, nor does cancelling or discarding the
preview; the store changes only on explicit confirmation of a preview, and
that change replaces both the field list and the row list wholesale with the
preview's lists. -/
theorem importAtomicity (s : AppState) :
    (∀ (name : String) (size now : Nat) (outcome : FileOutcome),
        (step s (.selectFile name size now outcome)).store = s.store) ∧
    (step s .cancel).store = s.store ∧
    (step s .uploadDifferent).store = s.store ∧
    (∀ p, s.uploader.preview = some p →
        (step s .confirmImport).store = { fields := p.fields, rows := p.rows }) ∧
    (s.uploader.preview = none → (step s .confirmImport).store = s.store) := by
  refine ⟨?_, rfl, rfl, ?_, ?_⟩
  · intro name size now outcome
    cases outcome with
    | grid g =>
      simp only [step]
      split
      · rfl
      · split
        · rfl
        · cases hpg : processGrid now g <;> rfl
    | libraryError =>
      simp only [step]
      split
      · rfl
      · split <;> rfl
    | readError =>
      simp only [step]
      split
      · rfl
      · split <;> rfl
    | parseError =>
      simp only [step]
      split
      · rfl
      · split <;> rfl
  · intro p hp
    unfold step
    rw [hp]
  · intro hp
    unfold step
    rw [hp]

/-- Witness for C5: confirming a concrete preview replaces the store with
exactly that preview, and a failing read leaves the store untouched. -/
theorem importAtomicity_witness :
    (step ⟨⟨[], []⟩, ⟨some ⟨[], [[("id", Value.vstr "x")]]⟩, none, false⟩⟩
        .confirmImport).store = { fields := [], rows := [[("id", Value.vstr "x")]] } ∧
    (step ⟨⟨[], []⟩, ⟨some ⟨[], [[("id", Value.vstr "x")]]⟩, none, false⟩⟩
        (.selectFile "a.xlsx" 0 0 .readError)).store = ⟨[], []⟩ :=
  ⟨(importAtomicity _).2.2.2.1 _ rfl, (importAtomicity _).1 "a.xlsx" 0 0 .readError⟩

/-- C6: field synthesis.  Whenever the header map succeeds, every produced
field has required false, a name equal to the trimmed header text or to the
positional placeholder Column N (N the 1-based column index) when the trimmed
header is blank, and a type equal to Type Inference run on the first of the
up-to-5 non-empty sample values collected from the column's data rows, or
text when the column has no non-empty sample. -/
theorem fieldSynthesis (now : Nat) (headers : List CellValue)
    (dataRows : List (List CellValue)) (fields : List Field) (i : Nat) (f : Field)
    (hm : makeFields now headers dataRows = some fields)
    (hf : fields[i]? = some f) :
    f.required = false ∧
    (∀ s, jsToStringMethod (jsIndex headers i) = some s →
        f.name = if jsTrim s = "" then "Column " ++ natDec (i + 1) else jsTrim s) ∧
    f.type = (match (((dataRows.map (fun r => jsIndex r i)).filter
        (fun v => !isEmptyCell v)).take 5) with
      | [] => FieldType.text
      | v :: _ => detectFieldType v) := by
  obtain ⟨h, hh, hmk⟩ := makeFieldsGo_spec now dataRows headers 0 fields i f hm hf
  rw [Nat.zero_add] at hmk
  unfold makeField at hmk
  cases hts : jsToStringMethod h with
  | none =>
    rw [hts] at hmk
    simp at hmk
  | some s0 =>
    rw [hts] at hmk
    simp only [Option.map_some', Option.some.injEq] at hmk
    subst hmk
    have hidx : jsIndex headers i = h := by
      unfold jsIndex
      rw [List.getD_eq_getElem?_getD, hh]
      rfl
    refine ⟨rfl, ?_, rfl⟩
    intro s hs
    rw [hidx, hts] at hs
    obtain rfl := Option.some.inj hs
    rfl

/-- Witness for C6: headers with a trimmable name and a blank name; column 0
samples the value 30 (number), column 1 has no sample (text). -/
theorem fieldSynthesis_witness :
    makeFields 0 [CellValue.str " Age ", CellValue.str " "] [[CellValue.str "30"]]
      = some [{ id := "field_0_0", name := "Age", type := FieldType.number, required := false },
              { id := "field_1_0", name := "Column 2", type := FieldType.text, required := false }] ∧
    ({ id := "field_1_0", name := "Column 2", type := FieldType.text,
       required := false } : Field).required = false ∧
    ({ id := "field_1_0", name := "Column 2", type := FieldType.text,
       required := false } : Field).name = "Column 2" ∧
    ({ id := "field_1_0", name := "Column 2", type := FieldType.text,
       required := false } : Field).type = FieldType.text := by
  have h := fieldSynthesis 0 [CellValue.str " Age ", CellValue.str " "] [[CellValue.str "30"]]
      [{ id := "field_0_0", name := "Age", type := FieldType.number, required := false },
       { id := "field_1_0", name := "Column 2", type := FieldType.text, required := false }]
      1 { id := "field_1_0", name := "Column 2", type := FieldType.text, required := false }
      (by decide) (by decide)
  refine ⟨by decide, h.1, ?_, ?_⟩
  · have h2 := h.2.1 " " (by decide)
    rw [h2]
    decide
  · have h3 := h.2.2
    rw [h3]
    decide

/-- C7 counterexample: on the round-trip input of the claim, the Active
column (sample value the string Yes, which the case-sensitive boolean test
does not match) is inferred as text, not boolean, and its normalized row
value is the string Yes, not the boolean true; this falsifies the claim as
stated at this explicit input. -/
theorem importRoundTrip_cx :
    (processGrid 0 [[CellValue.str "Name", CellValue.str "Age", CellValue.str "Active"],
        [CellValue.str "Ann", CellValue.str "30", CellValue.str "Yes"],
        [CellValue.str "", CellValue.str "", CellValue.str ""]]).toOption.map
      (fun p => (p.fields.map (fun f => f.type), p.rows.map (fun r => jsGet r "Active")))
    = some ([FieldType.text, FieldType.number, FieldType.text], [some (Value.vstr "Yes")]) ∧
    FieldType.text ≠ FieldType.boolean ∧
    (some (Value.vstr "Yes") ≠ some (Value.vbool true)) :=
  ⟨by decide, by decide, by decide⟩

/-- C7 as amended: on header row Name, Age, Active with data rows
(Ann, 30, Yes) and a fully blank row, the import yields exactly 1 row (the
blank row is dropped), Age is inferred as number with normalized value 30,
and Active is inferred as text (the boolean detector is case-sensitive and
does not match the string Yes) with normalized value the string Yes. -/
theorem importRoundTrip_amended :
    (processGrid 0 [[CellValue.str "Name", CellValue.str "Age", CellValue.str "Active"],
        [CellValue.str "Ann", CellValue.str "30", CellValue.str "Yes"],
        [CellValue.str "", CellValue.str "", CellValue.str ""]]).toOption.map
      (fun p => (p.rows.length, p.fields.map (fun f => (f.name, f.type)),
        p.rows.map (fun r => (jsGet r "Name", jsGet r "Age", jsGet r "Active"))))
    = some (1,
        [("Name", FieldType.text), ("Age", FieldType.number), ("Active", FieldType.text)],
        [(some (Value.vstr "Ann"), some (Value.vnum (.fin ⟨30, 1⟩)),
          some (Value.vstr "Yes"))]) := by rfl

/-- The label entry of one chart point, provided no configured series field is
itself named label (a series write would overwrite the label entry). -/
theorem jsGet_chartPoint_label (config : ChartConfig) (i : Nat) (row : Row)
    (hl : "label" ∉ config.yAxis) :
    jsGet (chartPoint config i row) "label" = some (match config.xAxis with
      | some x =>
        if x ≠ "" ∧ truthyOpt (jsGet row x) then (jsGet row x).getD (Value.vstr "")
        else Value.vstr ("Row " ++ natDec (i + 1))
      | none => Value.vstr ("Row " ++ natDec (i + 1))) := by
  unfold chartPoint
  rw [jsGet_foldl_setKey_not_mem (fun f => .vnum (chartNumCoerce (jsGet row f))) _ _ _ hl]
  rcases hx : config.xAxis with _ | x
  · simp only [hx]
    rw [jsGet_setKey_self]
  · simp only [hx]
    by_cases hc : x ≠ "" ∧ truthyOpt (jsGet row x)
    · rw [if_pos hc, if_pos hc, jsGet_setKey_self]
    · rw [if_neg hc, if_neg hc, jsGet_setKey_self]

/-- C8 counterexample: with xAxis set to a field whose value in the row is the
number 0 (present and non-empty) and with a series field named label, the
emitted label is the series value 5, not the xAxis value 0 and not the
positional label Row 1 — refuting the claimed labelling rule at this explicit
input. -/
theorem chartLabels_cx :
    (chartData [[("id", Value.vstr "r1"), ("a", Value.vnum (.fin ⟨0, 1⟩)),
        ("label", Value.vnum (.fin ⟨5, 1⟩))]]
      { type := "bar", xAxis := some "a", yAxis := ["label"], title := none }).map
      (fun p => jsGet p "label")
    = [some (Value.vnum (.fin ⟨5, 1⟩))] ∧
    (some (Value.vnum (.fin ⟨5, 1⟩)) ≠ some (Value.vnum (.fin ⟨0, 1⟩))) ∧
    (some (Value.vnum (.fin ⟨5, 1⟩)) ≠ some (Value.vstr "Row 1")) :=
  ⟨by rfl, by decide, by decide⟩

/-- C8 as amended: the projector emits exactly one point per row in input row
order, and — provided no configured yAxis entry is named label — each point's
label is the row's value at the configured xAxis field when that field is
configured (non-empty name) and the row's value there is truthy (present, and
neither the empty string, zero, NaN nor false), otherwise the positional
label Row N (1-based); with xAxis unset every label is positional. -/
theorem chartLabels_amended (data : List Row) (config : ChartConfig)
    (hl : "label" ∉ config.yAxis) :
    (chartData data config).length = data.length ∧
    ∀ i row, data[i]? = some row →
      ∃ p, (chartData data config)[i]? = some p ∧
        jsGet p "label" = some (match config.xAxis with
          | some x =>
            if x ≠ "" ∧ truthyOpt (jsGet row x) then (jsGet row x).getD (Value.vstr "")
            else Value.vstr ("Row " ++ natDec (i + 1))
          | none => Value.vstr ("Row " ++ natDec (i + 1))) := by
  constructor
  · unfold chartData
    split
    · rename_i h0
      simp [List.length_eq_zero.mp h0]
    · rw [List.length_map, List.enum_length]
  · intro i row hrow
    have hlen : i < data.length := (List.getElem?_eq_some.mp hrow).1
    have hne : ¬data.length = 0 := by omega
    unfold chartData
    rw [if_neg hne]
    refine ⟨chartPoint config i row, ?_, jsGet_chartPoint_label config i row hl⟩
    rw [List.getElem?_map, List.getElem?_enum, hrow]
    rfl

/-- Witness for C8 as amended: one row, xAxis unset, one series field; the
point exists and its label is the positional Row 1. -/
theorem chartLabels_amended_witness :
    (("label" ∉ (["y"] : List String)) ∧
      (chartData [[("id", Value.vstr "r"), ("y", Value.vnum (.fin ⟨7, 1⟩))]]
          { type := "bar", xAxis := none, yAxis := ["y"], title := none }).length = 1) ∧
    ((chartData [[("id", Value.vstr "r"), ("y", Value.vnum (.fin ⟨7, 1⟩))]]
        { type := "bar", xAxis := none, yAxis := ["y"], title := none })[0]?).map
      (fun p => jsGet p "label") = some (some (Value.vstr "Row 1")) := by
  have h := chartLabels_amended
      [[("id", Value.vstr "r"), ("y", Value.vnum (.fin ⟨7, 1⟩))]]
      { type := "bar", xAxis := none, yAxis := ["y"], title := none } (by decide)
  refine ⟨⟨by decide, h.1⟩, ?_⟩
  obtain ⟨p, hp, hv⟩ := h.2 0 [("id", Value.vstr "r"), ("y", Value.vnum (.fin ⟨7, 1⟩))] rfl
  rw [hp, Option.map_some', hv]
  rfl

/-- C9: for every row reaching the projector and every configured yAxis field
name, the corresponding point carries under that field name the row's value
coerced to a number: a number value passes through unchanged and every
non-number or missing value becomes 0. -/
theorem chartSeriesValues (data : List Row) (config : ChartConfig) (i : Nat) (row : Row)
    (f : String) (hrow : data[i]? = some row) (hf : f ∈ config.yAxis) :
    ∃ p, (chartData data config)[i]? = some p ∧
      jsGet p f = some (Value.vnum (match jsGet row f with
        | some (Value.vnum n) => n
        | _ => JSNumber.fin 0)) := by
  have hlen : i < data.length := (List.getElem?_eq_some.mp hrow).1
  have hne : ¬data.length = 0 := by omega
  unfold chartData
  rw [if_neg hne]
  refine ⟨chartPoint config i row, ?_, ?_⟩
  · rw [List.getElem?_map, List.getElem?_enum, hrow]
    rfl
  · unfold chartPoint
    rw [jsGet_foldl_setKey_mem (fun f2 => .vnum (chartNumCoerce (jsGet row f2))) _ _ _ hf]
    rfl

/-- Witness for C9: a numeric value passes through and a numeric-looking
string still becomes 0. -/
theorem chartSeriesValues_witness :
    ((chartData [[("id", Value.vstr "r"), ("x", Value.vnum (.fin ⟨7, 1⟩)),
        ("s", Value.vstr "30")]]
        { type := "bar", xAxis := none, yAxis := ["x", "s"], title := none })[0]?).map
      (fun p => (jsGet p "x", jsGet p "s"))
    = some (some (Value.vnum (.fin ⟨7, 1⟩)), some (Value.vnum (.fin 0))) := by
  obtain ⟨p, hp, hx⟩ := chartSeriesValues
      [[("id", Value.vstr "r"), ("x", Value.vnum (.fin ⟨7, 1⟩)), ("s", Value.vstr "30")]]
      { type := "bar", xAxis := none, yAxis := ["x", "s"], title := none } 0
      [("id", Value.vstr "r"), ("x", Value.vnum (.fin ⟨7, 1⟩)), ("s", Value.vstr "30")]
      "x" rfl (by decide)
  obtain ⟨p2, hp2, hs⟩ := chartSeriesValues
      [[("id", Value.vstr "r"), ("x", Value.vnum (.fin ⟨7, 1⟩)), ("s", Value.vstr "30")]]
      { type := "bar", xAxis := none, yAxis := ["x", "s"], title := none } 0
      [("id", Value.vstr "r"), ("x", Value.vnum (.fin ⟨7, 1⟩)), ("s", Value.vstr "30")]
      "s" rfl (by decide)
  rw [hp, Option.map_some']
  rw [hp] at hp2
  obtain rfl := Option.some.inj hp2
  rw [hx, hs]
  rfl

/-- C10: duplicate header collapse.  When the synthesized field list contains
several fields of the same name, every built row holds exactly one entry
under that name, and its value is the Value-Normalizer output of the cell in
the last column with that name (converted at that column's own type): data of
the earlier duplicate columns is overwritten, not rejected or renamed. -/
theorem duplicateHeaderCollapse (now rowIndex : Nat) (r : List CellValue)
    (pre post : List Field) (f : Field)
    (hpost : ∀ f2 ∈ post, f2.name ≠ f.name) :
    countKey (buildRow now (pre ++ f :: post) rowIndex r) f.name = 1 ∧
    jsGet (buildRow now (pre ++ f :: post) rowIndex r) f.name
      = some (convertValue (jsIndex r pre.length) f.type) := by
  unfold buildRow
  rw [buildRowDataGo_append, Nat.zero_add, buildRowDataGo_cons]
  have hnd : keysNodup (buildRowDataGo r 0 pre
      [("id", Value.vstr ("row_" ++ natDec rowIndex ++ "_" ++ natDec now))]) :=
    buildRowDataGo_keysNodup _ _ _ _ (by simp [keysNodup])
  constructor
  · rw [countKey_buildRowDataGo_not_mem _ _ _ _ _ hpost]
    exact countKey_setKey_self _ _ _ hnd
  · rw [jsGet_buildRowDataGo_not_mem _ _ _ _ _ hpost]
    exact jsGet_setKey_self _ _ _

/-- Witness for C10: two columns named A with cells 1 and 2; the row holds a
single A entry whose value is the normalized 2 of the second column. -/
theorem duplicateHeaderCollapse_witness :
    countKey (buildRow 0
        [{ id := "f0", name := "A", type := FieldType.number, required := false },
         { id := "f1", name := "A", type := FieldType.number, required := false }] 0
        [CellValue.str "1", CellValue.str "2"]) "A" = 1 ∧
    jsGet (buildRow 0
        [{ id := "f0", name := "A", type := FieldType.number, required := false },
         { id := "f1", name := "A", type := FieldType.number, required := false }] 0
        [CellValue.str "1", CellValue.str "2"]) "A"
      = some (Value.vnum (.fin ⟨2, 1⟩)) := by
  have h := duplicateHeaderCollapse 0 0 [CellValue.str "1", CellValue.str "2"]
      [{ id := "f0", name := "A", type := FieldType.number, required := false }]
      [] { id := "f1", name := "A", type := FieldType.number, required := false }
      (by intro f2 hf2; simp at hf2)
  exact ⟨h.1, h.2.trans (by decide)⟩

end DataDive
